import Mathlib

/-!
Verification of the health-data-bricks streaming core: a shallow embedding of
the surprise-based filter stack (`OnlineStats`, `ExponentialPredictor`,
`AdaptiveThreshold`, `SurpriseCalculator`, `SurpriseFilter`), the
continuous-time state estimator (`CfCCell`, `HealthStateEstimator`) and the
`InterventionPlanner`, with theorems about their documented properties.

Numbers are embedded as exact reals (ℝ) where the source uses `Math.exp`,
`Math.sqrt` or `Math.tanh`, and as rationals (ℚ) in the planner, whose
arithmetic is rational-closed.  JavaScript's `x || 1` fallback on a
non-negative number is embedded as `if x = 0 then 1 else x`, and `a ?? 0` /
`obj[k] || 0` lookups as `lookupA · 0`.  JavaScript `Map.set` / object-key
assignment is embedded as an association-list update that replaces the first
matching key or appends (`setAssoc`), preserving insertion order.
-/

namespace HealthBricks

/-! ## Association-list helpers (JS `Map` / object semantics) -/

/-- First-match association lookup (JS `Map.get` / object key read). -/
def lookupA {α : Type} (l : List (String × α)) (k : String) : Option α :=
  match l with
  | [] => none
  | (k', v) :: t => if k' = k then some v else lookupA t k

/-- JS `Map.set` / `obj[k] = v`: replace the value at the first occurrence of
the key, else append the binding at the end. -/
def setAssoc {α : Type} (l : List (String × α)) (k : String) (v : α) :
    List (String × α) :=
  match l with
  | [] => [(k, v)]
  | (k', v') :: t => if k' = k then (k, v) :: t else (k', v') :: setAssoc t k v

theorem setAssoc_mem {α : Type} {l : List (String × α)} {k : String} {v : α}
    {p : String × α} : p ∈ setAssoc l k v → p = (k, v) ∨ p ∈ l := by
  induction l with
  | nil => intro h; simpa [setAssoc] using h
  | cons hd t ih =>
    intro h
    rw [setAssoc] at h
    by_cases hk : hd.1 = k
    · rw [if_pos hk, List.mem_cons] at h
      rcases h with h | h
      · exact Or.inl h
      · exact Or.inr (List.mem_cons_of_mem _ h)
    · rw [if_neg hk, List.mem_cons] at h
      rcases h with h | h
      · exact Or.inr (h ▸ List.mem_cons_self _ _)
      · rcases ih h with h' | h'
        · exact Or.inl h'
        · exact Or.inr (List.mem_cons_of_mem _ h')

theorem lookupA_setAssoc_self {α : Type} (l : List (String × α)) (k : String)
    (v : α) : lookupA (setAssoc l k v) k = some v := by
  induction l with
  | nil => simp [setAssoc, lookupA]
  | cons hd t ih =>
    rw [setAssoc]
    by_cases hk : hd.1 = k
    · rw [if_pos hk]; simp [lookupA]
    · rw [if_neg hk]; simp [lookupA, hk, ih]

theorem lookupA_setAssoc_ne {α : Type} (l : List (String × α)) {k k' : String}
    (v : α) (h : k' ≠ k) : lookupA (setAssoc l k v) k' = lookupA l k' := by
  induction l with
  | nil => simp [setAssoc, lookupA, Ne.symm h]
  | cons hd t ih =>
    rw [setAssoc]
    by_cases hk : hd.1 = k
    · rw [if_pos hk]; simp [lookupA, hk, Ne.symm h]
    · rw [if_neg hk]
      by_cases hk' : hd.1 = k'
      · simp [lookupA, hk']
      · simp [lookupA, hk', ih]

noncomputable section

/-! ## OnlineStats (Welford streaming mean/variance)

Embeds `OnlineStats` from `src/core/physics/surprise-filter.ts` (lines 59-87):
`update` performs Welford's single-pass recursion over `count`, `mean` and the
sum of squared deviations `m2`. -/

structure OnlineStats where
  count : ℕ
  mean : ℝ
  m2 : ℝ

def OnlineStats.init : OnlineStats := ⟨0, 0, 0⟩

def OnlineStats.update (s : OnlineStats) (value : ℝ) : OnlineStats :=
  let count := s.count + 1
  let delta := value - s.mean
  let mean := s.mean + delta / count
  let delta2 := value - mean
  ⟨count, mean, s.m2 + delta * delta2⟩

def OnlineStats.getMean (s : OnlineStats) : ℝ := s.mean

def OnlineStats.getVariance (s : OnlineStats) : ℝ :=
  if 1 < s.count then s.m2 / ((s.count : ℝ) - 1) else 0

def OnlineStats.getStdDev (s : OnlineStats) : ℝ :=
  Real.sqrt s.getVariance

def OnlineStats.getCount (s : OnlineStats) : ℕ := s.count

/-- Feeding a whole sequence to the accumulator, in order. -/
def OnlineStats.updateList (s : OnlineStats) (xs : List ℝ) : OnlineStats :=
  xs.foldl OnlineStats.update s

/-- Direct (two-pass) arithmetic mean, following the spec's words. -/
def listMean (xs : List ℝ) : ℝ := xs.sum / xs.length

/-- Direct (two-pass) unbiased sample variance, following the spec's words:
`sum((x_i - mean)^2)/(N-1)`, and `0` when `N ≤ 1`. -/
def listSampleVariance (xs : List ℝ) : ℝ :=
  if xs.length ≤ 1 then 0
  else ((xs.map fun x => (x - listMean xs) ^ 2).sum) / ((xs.length : ℝ) - 1)

/-- Shifting the centre of a sum of squares. -/
theorem sum_sq_shift (xs : List ℝ) (a b : ℝ) :
    (xs.map fun x => (x - b) ^ 2).sum
      = (xs.map fun x => (x - a) ^ 2).sum + 2 * (a - b) * xs.sum
        + (xs.length : ℝ) * (b ^ 2 - a ^ 2) := by
  induction xs with
  | nil => simp
  | cons x t ih =>
    simp only [List.map_cons, List.sum_cons, List.length_cons, ih]
    push_cast
    ring

/-- The Welford invariant: after feeding `xs`, `count` is the length, `mean`
is the exact arithmetic mean and `m2` is the exact centred sum of squares. -/
theorem OnlineStats.updateList_spec (xs : List ℝ) :
    (OnlineStats.init.updateList xs).count = xs.length ∧
      (OnlineStats.init.updateList xs).mean = xs.sum / xs.length ∧
      (OnlineStats.init.updateList xs).m2
        = (xs.map fun x => (x - xs.sum / xs.length) ^ 2).sum := by
  induction xs using List.reverseRecOn with
  | nil => simp [updateList, OnlineStats.init]
  | append_singleton t v ih =>
    obtain ⟨hc, hm, h2⟩ := ih
    have hstep : OnlineStats.init.updateList (t ++ [v])
        = (OnlineStats.init.updateList t).update v := by
      simp [updateList]
    rcases Nat.eq_zero_or_pos t.length with h0 | hpos
    · have ht : t = [] := List.length_eq_zero.mp h0
      subst ht
      simp [hstep, updateList, OnlineStats.init, OnlineStats.update]
    · have hN : ((t.length : ℝ)) ≠ 0 := Nat.cast_ne_zero.mpr hpos.ne'
      have hN1 : ((t.length : ℝ) + 1) ≠ 0 := by positivity
      have hcount : (OnlineStats.init.updateList (t ++ [v])).count
          = (t ++ [v]).length := by
        rw [hstep]
        simp [OnlineStats.update, hc]
      have hmean : (OnlineStats.init.updateList (t ++ [v])).mean
          = (t.sum + v) / ((t.length : ℝ) + 1) := by
        rw [hstep]
        simp only [OnlineStats.update, hc, hm]
        push_cast
        field_simp
        ring
      refine ⟨hcount, ?_, ?_⟩
      · rw [hmean]; simp
      · -- m2 invariant
        have hm2step : (OnlineStats.init.updateList (t ++ [v])).m2
            = (t.map fun x => (x - t.sum / (t.length : ℝ)) ^ 2).sum
              + (v - t.sum / (t.length : ℝ))
                * (v - (t.sum + v) / ((t.length : ℝ) + 1)) := by
          rw [hstep]
          simp only [OnlineStats.update, hc, hm, h2]
          push_cast
          field_simp
          ring
        have hμ' : (t ++ [v]).sum / ((t ++ [v]).length : ℝ)
            = (t.sum + v) / ((t.length : ℝ) + 1) := by
          simp
        rw [hm2step, hμ']
        have hsplit : ((t ++ [v]).map
              fun x => (x - (t.sum + v) / ((t.length : ℝ) + 1)) ^ 2).sum
            = (t.map fun x => (x - (t.sum + v) / ((t.length : ℝ) + 1)) ^ 2).sum
              + (v - (t.sum + v) / ((t.length : ℝ) + 1)) ^ 2 := by
          simp
        rw [hsplit,
          sum_sq_shift t (t.sum / (t.length : ℝ))
            ((t.sum + v) / ((t.length : ℝ) + 1))]
        have key : (v - t.sum / (t.length : ℝ))
              * (v - (t.sum + v) / ((t.length : ℝ) + 1))
            = 2 * (t.sum / (t.length : ℝ) - (t.sum + v) / ((t.length : ℝ) + 1))
                * t.sum
              + (t.length : ℝ)
                * (((t.sum + v) / ((t.length : ℝ) + 1)) ^ 2
                  - (t.sum / (t.length : ℝ)) ^ 2)
              + (v - (t.sum + v) / ((t.length : ℝ) + 1)) ^ 2 := by
          field_simp
          ring
        linarith [key]

/-! ## ExponentialPredictor (Holt's linear method)

Embeds `ExponentialPredictor` (surprise-filter.ts lines 93-124). -/

structure ExponentialPredictor where
  alpha : ℝ
  beta : ℝ
  level : Option ℝ
  trend : ℝ

/-- `new ExponentialPredictor(alpha, beta)`. -/
def ExponentialPredictor.create (alpha beta : ℝ) : ExponentialPredictor :=
  ⟨alpha, beta, none, 0⟩

def ExponentialPredictor.predict (p : ExponentialPredictor) : Option ℝ :=
  p.level.map fun l => l + p.trend

/-- Returns `|error|` and the updated predictor. -/
def ExponentialPredictor.update (p : ExponentialPredictor) (value : ℝ) :
    ℝ × ExponentialPredictor :=
  match p.level with
  | none => (0, { p with level := some value, trend := 0 })
  | some l =>
    let prediction := l + p.trend
    let error := value - prediction
    let newLevel := p.alpha * value + (1 - p.alpha) * (l + p.trend)
    let newTrend := p.beta * (newLevel - l) + (1 - p.beta) * p.trend
    (|error|, { p with level := some newLevel, trend := newTrend })

/-! ## AdaptiveThreshold (EMA mean/variance of the surprise signal)

Embeds `AdaptiveThreshold` (surprise-filter.ts lines 17-53). -/

structure AdaptiveThreshold where
  alpha : ℝ
  k : ℝ
  initial : ℝ
  mean : ℝ
  variance : ℝ
  initialized : Bool

/-- `new AdaptiveThreshold(alpha, k, initial)`. -/
def AdaptiveThreshold.create (alpha k initial : ℝ) : AdaptiveThreshold :=
  ⟨alpha, k, initial, initial, 1, false⟩

def AdaptiveThreshold.get (t : AdaptiveThreshold) : ℝ :=
  t.mean + t.k * Real.sqrt t.variance

/-- Returns the new threshold value `get()` and the updated tracker. -/
def AdaptiveThreshold.update (t : AdaptiveThreshold) (surprise : ℝ) :
    ℝ × AdaptiveThreshold :=
  let t' :=
    if t.initialized = false then
      { t with mean := surprise, variance := 0, initialized := true }
    else
      let delta := surprise - t.mean
      { t with
        mean := t.alpha * surprise + (1 - t.alpha) * t.mean
        variance := t.alpha * delta * delta + (1 - t.alpha) * t.variance }
  (t'.get, t')

/-! ## SurpriseCalculator

Embeds `SurpriseCalculator` (surprise-filter.ts lines 138-192).  The JS
expression `this.errorStats.getStdDev() || 1` falls back to `1` exactly when
the (non-negative) standard deviation is `0`, embedded as an `if`. -/

structure SurpriseResult where
  surprise : ℝ
  threshold : ℝ
  keep : Bool
  prediction : Option ℝ
  zscore : ℝ

structure SurpriseCalculator where
  predictor : ExponentialPredictor
  threshold : AdaptiveThreshold
  stats : OnlineStats
  errorStats : OnlineStats

/-- `new SurpriseCalculator(alpha, thresholdK)`: predictor beta defaults to
0.1, threshold EMA alpha to 0.1 and threshold seed to 1.0. -/
def SurpriseCalculator.create (alpha thresholdK : ℝ) : SurpriseCalculator :=
  ⟨ExponentialPredictor.create alpha 0.1,
    AdaptiveThreshold.create 0.1 thresholdK 1,
    OnlineStats.init, OnlineStats.init⟩

open Classical in
def SurpriseCalculator.calculate (c : SurpriseCalculator) (value : ℝ) :
    SurpriseResult × SurpriseCalculator :=
  let prediction := c.predictor.predict
  let eu := c.predictor.update value
  let error := eu.1
  let errorStats := c.errorStats.update error
  let stats := c.stats.update value
  let errorMean := errorStats.getMean
  let errorStd := if errorStats.getStdDev = 0 then 1 else errorStats.getStdDev
  let zscore := (error - errorMean) / errorStd
  let surprise := 0.5 * zscore * zscore
  let tu := c.threshold.update surprise
  ({ surprise := surprise
     threshold := tu.1
     keep := decide (surprise > tu.1)
     prediction := prediction
     zscore := zscore },
   { predictor := eu.2, threshold := tu.2, stats := stats,
     errorStats := errorStats })

/-! ## Health records

Embeds the discriminated union from `src/core/types/health-record.ts`,
keeping the payload fields the filter reads; the nine variants whose payloads
the filter never touches are payload-free here. -/

inductive HealthRecord where
  | heart_rate (value : ℝ)
  | blood_pressure (systolic diastolic : ℝ)
  | blood_oxygen (value : ℝ)
  | body_temperature (value : ℝ)
  | respiratory_rate (value : ℝ)
  | hrv
  | steps (value : ℝ)
  | distance (value : ℝ)
  | calories (value : ℝ)
  | workout
  | sleep (duration : ℝ)
  | weight (value : ℝ)
  | height (value : ℝ)
  | body_composition
  | lab_result
  | nutrition

/-- The discriminant tag `record.type`. -/
def HealthRecord.recType : HealthRecord → String
  | .heart_rate _ => "heart_rate"
  | .blood_pressure _ _ => "blood_pressure"
  | .blood_oxygen _ => "blood_oxygen"
  | .body_temperature _ => "body_temperature"
  | .respiratory_rate _ => "respiratory_rate"
  | .hrv => "hrv"
  | .steps _ => "steps"
  | .distance _ => "distance"
  | .calories _ => "calories"
  | .workout => "workout"
  | .sleep _ => "sleep"
  | .weight _ => "weight"
  | .height _ => "height"
  | .body_composition => "body_composition"
  | .lab_result => "lab_result"
  | .nutrition => "nutrition"

/-- The seven record types from which `extractValue` reads a scalar. -/
def supportedTypes : List String :=
  ["heart_rate", "steps", "calories", "sleep", "weight", "blood_pressure",
    "blood_oxygen"]

/-! ## SurpriseFilter

Embeds `SurpriseFilter` (surprise-filter.ts lines 198-345). -/

structure FilterConfig where
  thresholdK : ℝ
  minSamples : ℕ
  metrics : List String

def defaultFilterConfig : FilterConfig :=
  ⟨2, 10, ["heart_rate", "steps", "sleep_duration", "calories"]⟩

structure FilterResult where
  keep : Bool
  totalSurprise : ℝ
  metricSurprises : List (String × SurpriseResult)
  reason : String

structure SurpriseFilter where
  calculators : List (String × SurpriseCalculator)
  sampleCount : ℕ
  config : FilterConfig

/-- The constructor: one eagerly created calculator per configured metric. -/
def mkSurpriseFilter (config : FilterConfig) : SurpriseFilter :=
  ⟨config.metrics.map fun m => (m, SurpriseCalculator.create 0.3 config.thresholdK),
    0, config⟩

/-- `extractValue` (surprise-filter.ts lines 317-336): the `switch` on
`record.type`. -/
def SurpriseFilter.extractValue : HealthRecord → Option ℝ
  | .heart_rate v => some v
  | .steps v => some v
  | .calories v => some v
  | .sleep d => some d
  | .weight v => some v
  | .blood_pressure s _ => some s
  | .blood_oxygen v => some v
  | _ => none

/-- `filter` (surprise-filter.ts lines 233-273): increments the sample
counter, keeps everything during warmup, keeps unsupported records, else
delegates to the (lazily created) per-type calculator. -/
def SurpriseFilter.filter (f : SurpriseFilter) (record : HealthRecord) :
    FilterResult × SurpriseFilter :=
  let f1 : SurpriseFilter := { f with sampleCount := f.sampleCount + 1 }
  if f1.sampleCount < f1.config.minSamples then
    ({ keep := true, totalSurprise := 0, metricSurprises := [],
       reason := "warmup" }, f1)
  else
    match SurpriseFilter.extractValue record with
    | none =>
      ({ keep := true, totalSurprise := 0, metricSurprises := [],
         reason := "unsupported_type" }, f1)
    | some value =>
      let calculator := (lookupA f1.calculators record.recType).getD
        (SurpriseCalculator.create 0.3 f1.config.thresholdK)
      let rc := calculator.calculate value
      let f2 := { f1 with
        calculators := setAssoc f1.calculators record.recType rc.2 }
      ({ keep := rc.1.keep, totalSurprise := rc.1.surprise,
         metricSurprises := [(record.recType, rc.1)],
         reason := if rc.1.keep then "surprising" else "expected" }, f2)

/-- Sequential filtering of a list of records, keeping only the final filter
state (the per-record results are produced one call at a time). -/
def SurpriseFilter.filterList (f : SurpriseFilter) (rs : List HealthRecord) :
    SurpriseFilter :=
  rs.foldl (fun a r => (a.filter r).2) f

/-! ## CfCCell (closed-form continuous relaxation)

Embeds `CfCCell` from the continuous dynamics engine.  Vectors are lists of
reals; the source's `a.map((v,i) => v + b[i])` style elementwise arithmetic
is embedded with `zipWith` (all vectors a cell owns have length `stateDim`).
-/

structure CfCConfig where
  stateDim : ℕ
  tauMin : ℝ
  tauMax : ℝ
  decayDefault : ℝ

def vectorAdd (a b : List ℝ) : List ℝ := List.zipWith (· + ·) a b

def vectorMultiply (a b : List ℝ) : List ℝ := List.zipWith (· * ·) a b

def zerosVec (n : ℕ) : List ℝ := List.replicate n 0

structure CfCCell where
  config : CfCConfig
  state : List ℝ
  tau : List ℝ
  equilibrium : List ℝ
  lastTimestamp : Option ℝ

/-- The constructor: zero state and equilibrium, tau at the midpoint of
`[tauMin, tauMax]`. -/
def mkCfCCell (config : CfCConfig) : CfCCell :=
  ⟨config, zerosVec config.stateDim,
    List.replicate config.stateDim ((config.tauMin + config.tauMax) / 2),
    zerosVec config.stateDim, none⟩

/-- Index-carrying map, embedding the source's `for (let i = 0; ...)` loops
over a vector. -/
def mapWithIndex {α : Type} (f : ℕ → α → α) : ℕ → List α → List α
  | _, [] => []
  | i, a :: t => f i a :: mapWithIndex f (i + 1) t

theorem length_mapWithIndex {α : Type} (f : ℕ → α → α) (i : ℕ) (l : List α) :
    (mapWithIndex f i l).length = l.length := by
  induction l generalizing i with
  | nil => rfl
  | cons a t ih => simp [mapWithIndex, ih]

theorem mem_mapWithIndex {α : Type} {f : ℕ → α → α} {i : ℕ} {l : List α}
    {b : α} (h : b ∈ mapWithIndex f i l) : ∃ j a, a ∈ l ∧ b = f j a := by
  induction l generalizing i with
  | nil => simp [mapWithIndex] at h
  | cons a t ih =>
    rw [mapWithIndex, List.mem_cons] at h
    rcases h with h | h
    · exact ⟨i, a, List.mem_cons_self _ _, h⟩
    · obtain ⟨j, a', ha', hb⟩ := ih h
      exact ⟨j, a', List.mem_cons_of_mem _ ha', hb⟩

/-- `updateEquilibrium`: EMA of the observation with fixed alpha 0.3, applied
to indices below `min(observation.length, stateDim)`. -/
def CfCCell.updateEquilibrium (c : CfCCell) (obs : List ℝ) : List ℝ :=
  mapWithIndex
    (fun i e =>
      if i < obs.length ∧ i < c.config.stateDim then
        0.3 * obs.getD i 0 + (1 - 0.3) * e
      else e)
    0 c.equilibrium

/-- `updateTau`: smooth each time constant toward
`tauMax - tanh|obs - state| * (tauMax - tauMin)`. -/
def CfCCell.updateTau (c : CfCCell) (obs : List ℝ) : List ℝ :=
  mapWithIndex
    (fun i t =>
      if i < obs.length ∧ i < c.config.stateDim then
        let diff := |obs.getD i 0 - c.state.getD i 0|
        let normalizedDiff := Real.tanh diff
        let targetTau := c.config.tauMax
          - normalizedDiff * (c.config.tauMax - c.config.tauMin)
        0.1 * targetTau + 0.9 * t
      else t)
    0 c.tau

/-- `decay[i] = exp(-dt / tau[i])`, shared by `step` and `predict`. -/
def cfcDecay (dt : ℝ) (tau : List ℝ) : List ℝ :=
  tau.map fun t => Real.exp (-dt / t)

/-- `h_new = h_old * decay + equilibrium * (1 - decay)`, shared by `step` and
`predict`. -/
def cfcRelax (state equilibrium decay : List ℝ) : List ℝ :=
  vectorAdd (vectorMultiply state decay)
    (vectorMultiply equilibrium (decay.map fun d => 1 - d))

/-- `step`: dt is 0.1 on the first observation, else clamped below by 1e-4;
equilibrium and tau adapt first, then the state relaxes. -/
def CfCCell.step (c : CfCCell) (observation : List ℝ) (timestamp : ℝ) :
    List ℝ × CfCCell :=
  let dt : ℝ :=
    match c.lastTimestamp with
    | none => 0.1
    | some lt => max (timestamp - lt) (1 / 10000)
  let equilibrium := c.updateEquilibrium observation
  let tau := c.updateTau observation
  let newState := cfcRelax c.state equilibrium (cfcDecay dt tau)
  (newState,
    { c with
      state := newState
      tau := tau
      equilibrium := equilibrium
      lastTimestamp := some timestamp })

/-- `predict`: pure read; dt is clamped below by 0; zero vector before the
first observation. -/
def CfCCell.predict (c : CfCCell) (futureTimestamp : ℝ) : List ℝ :=
  match c.lastTimestamp with
  | none => zerosVec c.config.stateDim
  | some lt =>
    let dt := max (futureTimestamp - lt) 0
    cfcRelax c.state c.equilibrium (cfcDecay dt c.tau)

def CfCCell.getState (c : CfCCell) : List ℝ := c.state

def CfCCell.getTau (c : CfCCell) : List ℝ := c.tau

/-! ## HealthStateEstimator

Embeds `HealthStateEstimator`: a named bank of `CfCCell`s with internal
`stateDim = 4`.  JS `Infinity` for `timeSinceUpdate` is embedded as `none`.
The source's truthiness test `this.lastUpdateTime ? ... : ...` treats a
`lastUpdateTime` of exactly `0` like `null`, which the embedding mirrors with
an explicit `if lt = 0` branch. -/

structure DimensionSpec where
  name : String
  tauMin : ℝ
  tauMax : ℝ

structure HealthStateConfig where
  dimensions : List DimensionSpec

def DEFAULT_HEALTH_STATE_CONFIG : HealthStateConfig :=
  ⟨[⟨"cardiovascular", 60, 3600⟩, ⟨"activity", 300, 86400⟩,
    ⟨"sleep", 3600, 604800⟩, ⟨"stress", 60, 7200⟩, ⟨"energy", 1800, 86400⟩,
    ⟨"recovery", 3600, 259200⟩, ⟨"circadian", 43200, 172800⟩,
    ⟨"metabolic", 1800, 28800⟩]⟩

structure HealthState where
  timestamp : ℝ
  dimensions : List (String × ℝ)
  confidence : List (String × ℝ)
  timeSinceUpdate : Option ℝ

structure HealthStateEstimator where
  config : HealthStateConfig
  cells : List (String × CfCCell)
  lastUpdateTime : Option ℝ

/-- The constructor: one `CfCCell` (with `stateDim = 4`) per configured
dimension. -/
def mkHealthStateEstimator (config : HealthStateConfig) :
    HealthStateEstimator :=
  ⟨config,
    config.dimensions.map fun d => (d.name, mkCfCCell ⟨4, d.tauMin, d.tauMax, 0.99⟩),
    none⟩

/-- Expansion of a scalar observation into the cell's 4-vector. -/
def obsVector (v : ℝ) : List ℝ := [v, v * 0.5, v * 0.25, v * 0.125]

/-- Collapse of a cell's 4-dimensional state to one scalar with the fixed
weights 0.5/0.3/0.15/0.05. -/
def collapseState (st : List ℝ) : ℝ :=
  st.getD 0 0 * 0.5 + st.getD 1 0 * 0.3 + st.getD 2 0 * 0.15
    + st.getD 3 0 * 0.05

/-- `tau.reduce((a,b) => a+b, 0) / tau.length`. -/
def avgTau (tau : List ℝ) : ℝ := tau.sum / tau.length

/-- The cell the source's non-null assertion `this.cells.get(dim.name)!`
expects: the constructor stores exactly this cell for `dim`. -/
def defaultDimCell (d : DimensionSpec) : CfCCell :=
  mkCfCCell ⟨4, d.tauMin, d.tauMax, 0.99⟩

/-- The `update` loop over configured dimensions, threading the mutable cell
map and accumulating the `dimensions` and `confidence` records. -/
def stepDims (t : ℝ) (obs : List (String × ℝ)) :
    List DimensionSpec → List (String × CfCCell) → List (String × ℝ) →
      List (String × ℝ) →
      List (String × CfCCell) × List (String × ℝ) × List (String × ℝ)
  | [], cells, dims, confs => (cells, dims, confs)
  | d :: rest, cells, dims, confs =>
    let cell := (lookupA cells d.name).getD (defaultDimCell d)
    let r := cell.step (obsVector ((lookupA obs d.name).getD 0)) t
    stepDims t obs rest (setAssoc cells d.name r.2)
      (setAssoc dims d.name (collapseState r.1))
      (setAssoc confs d.name (Real.exp (-(0.1 / avgTau r.2.tau))))

def HealthStateEstimator.update (e : HealthStateEstimator)
    (observations : List (String × ℝ)) (timestamp : ℝ) :
    HealthState × HealthStateEstimator :=
  let r := stepDims timestamp observations e.config.dimensions e.cells [] []
  ({ timestamp := timestamp, dimensions := r.2.1, confidence := r.2.2,
     timeSinceUpdate := some 0 },
   { e with cells := r.1, lastUpdateTime := some timestamp })

/-- The `predict` loop over configured dimensions (cells are not mutated). -/
def predictDims (ft dt : ℝ) :
    List DimensionSpec → List (String × CfCCell) → List (String × ℝ) →
      List (String × ℝ) → List (String × ℝ) × List (String × ℝ)
  | [], _, dims, confs => (dims, confs)
  | d :: rest, cells, dims, confs =>
    let cell := (lookupA cells d.name).getD (defaultDimCell d)
    let st := cell.predict ft
    predictDims ft dt rest cells
      (setAssoc dims d.name (collapseState st))
      (setAssoc confs d.name (Real.exp (-(dt / avgTau cell.tau))))

def HealthStateEstimator.predict (e : HealthStateEstimator)
    (futureTimestamp : ℝ) : HealthState :=
  let dt : ℝ :=
    match e.lastUpdateTime with
    | some lt => if lt = 0 then 0 else futureTimestamp - lt
    | none => 0
  let r := predictDims futureTimestamp dt e.config.dimensions e.cells [] []
  { timestamp := futureTimestamp, dimensions := r.1, confidence := r.2,
    timeSinceUpdate :=
      match e.lastUpdateTime with
      | some lt => if lt = 0 then none else some (futureTimestamp - lt)
      | none => none }

def HealthStateEstimator.getCurrentState (e : HealthStateEstimator) :
    Option HealthState :=
  match e.lastUpdateTime with
  | none => none
  | some lt => some (e.predict lt)

end

/-! ## InterventionPlanner

Embeds `InterventionPlanner`.  Its scoring arithmetic is rational-closed, so
this part uses ℚ and is executable; only the final `expectedGap` (a square
root) is real-valued.  JS `Array.prototype.sort` (stable, comparator
`b.score - a.score`) is embedded as a stable merge sort by descending score.
-/

structure ActionEffect where
  dimension : String
  magnitude : ℚ
  confidence : ℚ
  timeToEffect : ℚ

structure Action where
  id : String
  name : String
  category : String
  cost : ℚ
  duration : ℚ
  effects : List ActionEffect

structure PlannerConfig where
  lambda : ℚ
  maxActions : ℕ
  costWeight : ℚ
  actions : List Action

structure PlannedAction where
  action : Action
  weight : ℚ
  priority : ℕ
  expectedImpact : List (String × ℚ)

structure InterventionPlan where
  actions : List PlannedAction
  expectedGap : ℝ
  totalCost : ℚ
  activeCount : ℕ
  explanation : List String

structure PlanConstraints where
  maxCost : Option ℚ
  maxDuration : Option ℚ
  excludeCategories : Option (List String)

namespace InterventionPlanner

/-- JS `Set` insertion order: first occurrence of each key. -/
def dedupFirst (l : List String) : List String :=
  l.foldl (fun acc k => if k ∈ acc then acc else acc ++ [k]) []

/-- `calculateGap`: `gap[dim] = (target[dim] || 0) - (current[dim] || 0)` over
the union of the two key sets. -/
def calculateGap (current target : List (String × ℚ)) : List (String × ℚ) :=
  let allDims := dedupFirst (current.map Prod.fst ++ target.map Prod.fst)
  allDims.map fun dim =>
    (dim, ((lookupA target dim).getD 0) - ((lookupA current dim).getD 0))

/-- The per-effect loop of `scoreActions`, accumulating `(benefit,
totalWeight)`: the overshoot penalty sits in the `else if` branch, so it
applies only when the sign-match condition fails. -/
def benefitWeight (gap : List (String × ℚ)) (effects : List ActionEffect) :
    ℚ × ℚ :=
  effects.foldl
    (fun acc e =>
      let dimGap := (lookupA gap e.dimension).getD 0
      let benefit :=
        if (dimGap > 0 ∧ e.magnitude > 0) ∨ (dimGap < 0 ∧ e.magnitude < 0) then
          acc.1 + min |dimGap| |e.magnitude| * e.confidence
        else if |e.magnitude| > |dimGap| * 2 then
          acc.1 - 0.1 * |e.magnitude| * e.confidence
        else acc.1
      (benefit, acc.2 + e.confidence))
    (0, 0)

/-- The score of one action: normalized benefit minus the sparsity penalty
`lambda` and the cost penalty, clamped at 0. -/
def scoreAction (gap : List (String × ℚ)) (cfg : PlannerConfig)
    (action : Action) : ℚ :=
  let bw := benefitWeight gap action.effects
  let benefit := if bw.2 > 0 then bw.1 / bw.2 else bw.1
  let sparsityPenalty := cfg.lambda
  let costPenalty := cfg.costWeight * action.cost
  max 0 (benefit - sparsityPenalty - costPenalty)

/-- `maxCost !== undefined && action.cost > maxCost`. -/
def overBudget (maxCost : Option ℚ) (a : Action) : Bool :=
  match maxCost with
  | some c => decide (c < a.cost)
  | none => false

/-- The per-action loop of `scoreActions` (budget-skipping included). -/
def scoreList (gap : List (String × ℚ)) (cfg : PlannerConfig)
    (maxCost : Option ℚ) : List Action → List (Action × ℚ)
  | [] => []
  | a :: rest =>
    if overBudget maxCost a then scoreList gap cfg maxCost rest
    else (a, scoreAction gap cfg a) :: scoreList gap cfg maxCost rest

/-- `scoreActions`: score each affordable action, then sort by descending
score (stable). -/
def scoreActions (actions : List Action) (gap : List (String × ℚ))
    (maxCost : Option ℚ) (cfg : PlannerConfig) : List (Action × ℚ) :=
  (scoreList gap cfg maxCost actions).mergeSort fun x y => decide (y.2 ≤ x.2)

/-- `calculateImpact`: `magnitude * confidence` of the first matching effect
per requested dimension, else 0. -/
def calculateImpact (action : Action) (dimensions : List String) :
    List (String × ℚ) :=
  dimensions.map fun dim =>
    (dim,
      match action.effects.find? (fun e => e.dimension == dim) with
      | some e => e.magnitude * e.confidence
      | none => 0)

/-- The dominant effect (largest `|magnitude|`, first wins ties), i.e. the
source's `effects.reduce(...)`; `none` for an empty effects list, where the
source's initial-value-free `reduce` would throw. -/
def mainEffect (effects : List ActionEffect) : Option ActionEffect :=
  match effects with
  | [] => none
  | e :: rest =>
    some (rest.foldl
      (fun best e' => if |e'.magnitude| > |best.magnitude| then e' else best) e)

/-- The explanation sentence for one planned action (the source also renders
the magnitude as a percentage; that numeric formatting of a float is not
embedded). -/
def explanationFor (action : Action) : String :=
  match mainEffect action.effects with
  | some e => action.name ++ ": Primarily affects " ++ e.dimension
  | none => action.name ++ ": Primarily affects "

/-- The selected-action loop of `plan`: updates the running predicted gap,
records one `PlannedAction` (priority = 1-based rank) and one explanation per
selected action. -/
def planLoop (dims : List String) :
    List (Action × ℚ) → ℕ → List (String × ℚ) →
      List (String × ℚ) × List PlannedAction × List String
  | [], _, pg => (pg, [], [])
  | (a, s) :: rest, i, pg =>
    let impact := calculateImpact a dims
    let pg' := dims.foldl
      (fun acc dim =>
        setAssoc acc dim ((lookupA acc dim).getD 0 - (lookupA impact dim).getD 0))
      pg
    let r := planLoop dims rest (i + 1) pg'
    (r.1, ⟨a, s, i + 1, impact⟩ :: r.2.1, explanationFor a :: r.2.2)

/-- `plan`: gap, constraint filtering (JS truthiness: a `maxDuration` of 0 is
falsy and applies no filter), scoring, selection of scores above 0.1 capped
at `maxActions`, impact simulation, and plan assembly. -/
noncomputable def plan (cfg : PlannerConfig)
    (currentState targetState : List (String × ℚ))
    (constraints : Option PlanConstraints) : InterventionPlan :=
  let gap := calculateGap currentState targetState
  let dimensions := gap.map Prod.fst
  let avail₁ :=
    match constraints with
    | some cs =>
      match cs.excludeCategories with
      | some ex => cfg.actions.filter fun a => decide (a.category ∉ ex)
      | none => cfg.actions
    | none => cfg.actions
  let avail₂ :=
    match constraints with
    | some cs =>
      match cs.maxDuration with
      | some d =>
        if d = 0 then avail₁ else avail₁.filter fun a => decide (a.duration ≤ d)
      | none => avail₁
    | none => avail₁
  let maxCost := match constraints with | some cs => cs.maxCost | none => none
  let actionScores := scoreActions avail₂ gap maxCost cfg
  let selectedActions :=
    (actionScores.filter fun p => decide (p.2 > 0.1)).take cfg.maxActions
  let r := planLoop dimensions selectedActions 0 gap
  { actions := r.2.1
    expectedGap := Real.sqrt (((r.1.map fun p => p.2 * p.2).sum : ℚ) : ℝ)
    totalCost := (r.2.1.map fun pa => pa.action.cost).sum
    activeCount := r.2.1.length
    explanation := r.2.2 }

/-- `quickWin`: `plan` under `maxCost = 0.3, maxDuration = 15`, first action
only. -/
noncomputable def quickWin (cfg : PlannerConfig)
    (currentState targetState : List (String × ℚ)) : Option PlannedAction :=
  (plan cfg currentState targetState (some ⟨some (3/10), some 15, none⟩)).actions.head?

end InterventionPlanner

/-! ## Filter-stack theorems (claims C1, C2, C5, C6, C10) -/

/-- Claim C5: for every finite sequence of values fed to `OnlineStats.update`,
`getMean()` equals the arithmetic mean of the sequence and `getVariance()`
equals the unbiased two-pass sample variance (0 when N ≤ 1): in exact
arithmetic the Welford recursion is equivalent to the direct two-pass
computation. -/
theorem OnlineStats.welford_equiv_two_pass (xs : List ℝ) :
    (OnlineStats.init.updateList xs).getMean = listMean xs ∧
      (OnlineStats.init.updateList xs).getVariance = listSampleVariance xs := by
  obtain ⟨hc, hm, h2⟩ := OnlineStats.updateList_spec xs
  constructor
  · rw [OnlineStats.getMean, hm, listMean]
  · rw [OnlineStats.getVariance, hc, listSampleVariance]
    by_cases h : xs.length ≤ 1
    · rw [if_neg (by omega), if_pos h]
    · rw [if_pos (by omega), if_neg h, h2, listMean]

/-- Claim C2: a call made while the (incremented) sample counter is still
below `minSamples` returns `keep = true` with reason `'warmup'` and leaves
the per-metric calculator map untouched; the only state change is the counter
increment. -/
theorem SurpriseFilter.warmup_frame (f : SurpriseFilter) (r : HealthRecord)
    (h : f.sampleCount + 1 < f.config.minSamples) :
    (f.filter r).1.keep = true ∧ (f.filter r).1.reason = "warmup" ∧
      (f.filter r).2.calculators = f.calculators ∧
      (f.filter r).2 = { f with sampleCount := f.sampleCount + 1 } := by
  rw [SurpriseFilter.filter]
  simp [h]

theorem SurpriseFilter.warmup_frame_witness :
    (mkSurpriseFilter defaultFilterConfig).sampleCount + 1
        < (mkSurpriseFilter defaultFilterConfig).config.minSamples ∧
      (((mkSurpriseFilter defaultFilterConfig).filter
          (.heart_rate 70)).1.reason = "warmup" ∧
        ((mkSurpriseFilter defaultFilterConfig).filter
            (.heart_rate 70)).2.calculators
          = (mkSurpriseFilter defaultFilterConfig).calculators) :=
  have h : (mkSurpriseFilter defaultFilterConfig).sampleCount + 1
      < (mkSurpriseFilter defaultFilterConfig).config.minSamples := by
    simp [mkSurpriseFilter, defaultFilterConfig]
  ⟨h, (SurpriseFilter.warmup_frame _ (.heart_rate 70) h).2.1,
    (SurpriseFilter.warmup_frame _ (.heart_rate 70) h).2.2.1⟩

/-- One `filter` call always increments the counter by one and preserves the
configuration, whatever branch is taken. -/
theorem SurpriseFilter.filter_sampleCount (f : SurpriseFilter)
    (r : HealthRecord) :
    (f.filter r).2.sampleCount = f.sampleCount + 1 ∧
      (f.filter r).2.config = f.config := by
  rw [SurpriseFilter.filter]
  by_cases h : f.sampleCount + 1 < f.config.minSamples
  · simp [h]
  · cases hE : SurpriseFilter.extractValue r <;> simp [h, hE]

theorem SurpriseFilter.filterList_sampleCount (f : SurpriseFilter)
    (rs : List HealthRecord) :
    (f.filterList rs).sampleCount = f.sampleCount + rs.length ∧
      (f.filterList rs).config = f.config := by
  induction rs generalizing f with
  | nil => simp [SurpriseFilter.filterList]
  | cons r t ih =>
    have h1 := SurpriseFilter.filter_sampleCount f r
    have h2 := ih (f.filter r).2
    rw [SurpriseFilter.filterList] at h2 ⊢
    simp only [List.foldl_cons] at h2 ⊢
    refine ⟨?_, ?_⟩
    · rw [h2.1, h1.1]
      simp only [List.length_cons]
      omega
    · rw [h2.2, h1.2]

/-- A single call's reason is `'warmup'` exactly when the incremented counter
is still strictly below `minSamples`. -/
theorem SurpriseFilter.reason_warmup_iff (f : SurpriseFilter)
    (r : HealthRecord) :
    (f.filter r).1.reason = "warmup" ↔
      f.sampleCount + 1 < f.config.minSamples := by
  rw [SurpriseFilter.filter]
  by_cases h : f.sampleCount + 1 < f.config.minSamples
  · simp [h]
  · cases hE : SurpriseFilter.extractValue r with
    | none => simp [h, hE]
    | some v =>
      simp [h, hE]
      split <;> simp

/-- Claim C10: the counter is incremented before the strict comparison with
`minSamples`, so on a fresh filter with `minSamples = n` exactly the first
`max(n-1, 0)` calls answer `'warmup'` (none at all for `n = 0` or `n = 1`):
the call numbered `rs.length + 1` is a warmup call iff `rs.length + 1 < n`,
and in particular the n-th call is already really filtered. -/
theorem SurpriseFilter.warmup_exactly_first_calls (cfg : FilterConfig)
    (rs : List HealthRecord) (r : HealthRecord) :
    (((mkSurpriseFilter cfg).filterList rs).filter r).1.reason = "warmup" ↔
      rs.length + 1 < cfg.minSamples := by
  have h := SurpriseFilter.filterList_sampleCount (mkSurpriseFilter cfg) rs
  rw [SurpriseFilter.reason_warmup_iff, h.1, h.2]
  simp [mkSurpriseFilter]

/-- A record whose type tag is not one of the seven supported scalar-bearing
types yields no scalar. -/
theorem SurpriseFilter.extractValue_eq_none (r : HealthRecord)
    (h : r.recType ∉ supportedTypes) : SurpriseFilter.extractValue r = none := by
  cases r <;>
    simp_all [HealthRecord.recType, supportedTypes, SurpriseFilter.extractValue]

/-- Claim C6: `filter` is a total function (the embedding is a plain Lean
function, mirroring that the source never throws), and past warmup every
record whose type is not one of the seven supported scalar-bearing types is
kept with reason `'unsupported_type'`. -/
theorem SurpriseFilter.unsupported_kept (f : SurpriseFilter) (r : HealthRecord)
    (hw : f.config.minSamples ≤ f.sampleCount + 1)
    (hr : r.recType ∉ supportedTypes) :
    (f.filter r).1
      = { keep := true, totalSurprise := 0, metricSurprises := [],
          reason := "unsupported_type" } := by
  have hE := SurpriseFilter.extractValue_eq_none r hr
  rw [SurpriseFilter.filter]
  simp [Nat.not_lt.mpr hw, hE]

theorem SurpriseFilter.unsupported_kept_witness :
    ({ mkSurpriseFilter defaultFilterConfig with
        sampleCount := 20 } : SurpriseFilter).config.minSamples ≤ 20 + 1 ∧
      HealthRecord.workout.recType ∉ supportedTypes ∧
      (({ mkSurpriseFilter defaultFilterConfig with
          sampleCount := 20 } : SurpriseFilter).filter HealthRecord.workout).1
        = { keep := true, totalSurprise := 0, metricSurprises := [],
            reason := "unsupported_type" } :=
  have h1 : ({ mkSurpriseFilter defaultFilterConfig with
      sampleCount := 20 } : SurpriseFilter).config.minSamples ≤ 20 + 1 := by
    simp [mkSurpriseFilter, defaultFilterConfig]
  have h2 : HealthRecord.workout.recType ∉ supportedTypes := by
    simp [HealthRecord.recType, supportedTypes]
  ⟨h1, h2, SurpriseFilter.unsupported_kept _ _ h1 h2⟩

/-- Projections of one `calculate` call in terms of the incoming state, used
to evaluate chained calls without unfolding the earlier ones. -/
theorem SurpriseCalculator.calculate_fields (c : SurpriseCalculator) (v : ℝ) :
    (c.calculate v).2.errorStats = c.errorStats.update (c.predictor.update v).1 ∧
      (c.calculate v).1.zscore
        = ((c.predictor.update v).1
            - (c.errorStats.update (c.predictor.update v).1).getMean)
          / (if (c.errorStats.update (c.predictor.update v).1).getStdDev = 0
              then 1
              else (c.errorStats.update (c.predictor.update v).1).getStdDev) := by
  constructor <;> simp [SurpriseCalculator.calculate]

/-- Claim C1 (amended): in `SurpriseCalculator.calculate` the z-score divisor
is `errorStats.getStdDev()` itself whenever that standard deviation is
nonzero, and `1` only as a fallback for a zero standard deviation (the JS
`|| 1` guard) — not `max(stdDev, 1)` — and the surprise is
`0.5 * zscore^2`. -/
theorem SurpriseCalculator.zscore_surprise_spec (c : SurpriseCalculator)
    (value : ℝ) :
    (c.calculate value).1.zscore
        = ((c.predictor.update value).1
            - (c.calculate value).2.errorStats.getMean)
          / (if (c.calculate value).2.errorStats.getStdDev = 0 then 1
              else (c.calculate value).2.errorStats.getStdDev) ∧
      (c.calculate value).1.surprise
        = 0.5 * (c.calculate value).1.zscore ^ 2 := by
  constructor
  · simp [SurpriseCalculator.calculate]
  · simp [SurpriseCalculator.calculate]
    ring

/-- State of the error statistics after `calculate 0` on a fresh calculator. -/
theorem SurpriseCalculator.firstCall_errorStats :
    ((SurpriseCalculator.create 0.3 2).calculate 0).2.errorStats = ⟨1, 0, 0⟩ := by
  simp [SurpriseCalculator.create, SurpriseCalculator.calculate,
    ExponentialPredictor.create, ExponentialPredictor.update,
    OnlineStats.init, OnlineStats.update]

/-- State of the predictor after `calculate 0` on a fresh calculator. -/
theorem SurpriseCalculator.firstCall_predictor :
    ((SurpriseCalculator.create 0.3 2).calculate 0).2.predictor
      = ⟨0.3, 0.1, some 0, 0⟩ := by
  simp [SurpriseCalculator.create, SurpriseCalculator.calculate,
    ExponentialPredictor.create, ExponentialPredictor.update]

/-- Prediction error of the second call (`value = 1` against prediction 0). -/
theorem SurpriseCalculator.secondCall_error :
    (((SurpriseCalculator.create 0.3 2).calculate 0).2.predictor.update 1).1
      = 1 := by
  rw [SurpriseCalculator.firstCall_predictor]
  simp [ExponentialPredictor.update]

/-- Error statistics after feeding 0 then 1. -/
theorem SurpriseCalculator.secondCall_errorStats :
    (((SurpriseCalculator.create 0.3 2).calculate 0).2.calculate 1).2.errorStats
      = ⟨2, 1/2, 1/2⟩ := by
  rw [(SurpriseCalculator.calculate_fields _ _).1,
    SurpriseCalculator.secondCall_error, SurpriseCalculator.firstCall_errorStats]
  simp [OnlineStats.update]
  norm_num

theorem stdDev_of_two_half :
    ((⟨2, 1/2, 1/2⟩ : OnlineStats)).getStdDev = Real.sqrt (1/2) := by
  simp [OnlineStats.getStdDev, OnlineStats.getVariance]
  norm_num

theorem sqrt_half_ne_zero : Real.sqrt (1/2) ≠ 0 :=
  ne_of_gt (Real.sqrt_pos.mpr (by norm_num))

/-- Z-score actually returned on the second call: the divisor is
`sqrt(1/2) < 1`, not `max(sqrt(1/2), 1) = 1`. -/
theorem SurpriseCalculator.secondCall_zscore :
    (((SurpriseCalculator.create 0.3 2).calculate 0).2.calculate 1).1.zscore
      = (1 - 1/2) / Real.sqrt (1/2) := by
  rw [(SurpriseCalculator.calculate_fields _ _).2,
    SurpriseCalculator.secondCall_error, SurpriseCalculator.firstCall_errorStats]
  have h : ((⟨1, 0, 0⟩ : OnlineStats).update 1) = ⟨2, 1/2, 1/2⟩ := by
    simp [OnlineStats.update]; norm_num
  rw [h, stdDev_of_two_half, if_neg sqrt_half_ne_zero]
  simp [OnlineStats.getMean]

/-- Claim C1, counterexample: after feeding 0 then 1 to a fresh calculator,
the post-call error statistics have mean 1/2 and standard deviation
`sqrt(1/2)`, which is nonzero but smaller than 1; the z-score the code
computes divides by `sqrt(1/2)` and therefore differs from the claimed
`(error - mean) / max(stdDev, 1)`. -/
theorem SurpriseCalculator.zscore_divisor_not_max :
    (((SurpriseCalculator.create 0.3 2).calculate 0).2.calculate
        1).2.errorStats.getMean = 1/2 ∧
      (((SurpriseCalculator.create 0.3 2).calculate 0).2.calculate
          1).2.errorStats.getStdDev = Real.sqrt (1/2) ∧
      (((SurpriseCalculator.create 0.3 2).calculate 0).2.calculate
          1).1.zscore ≠ (1 - 1/2) / max (Real.sqrt (1/2)) 1 := by
  refine ⟨?_, ?_, ?_⟩
  · rw [SurpriseCalculator.secondCall_errorStats]
    simp [OnlineStats.getMean]
  · rw [SurpriseCalculator.secondCall_errorStats, stdDev_of_two_half]
  · rw [SurpriseCalculator.secondCall_zscore,
      max_eq_right (Real.sqrt_le_one.mpr (by norm_num))]
    intro hEq
    have hs : Real.sqrt (1/2) = 1 := by
      have hpos : (0:ℝ) < Real.sqrt (1/2) := Real.sqrt_pos.mpr (by norm_num)
      field_simp at hEq
    have := Real.sqrt_eq_one.mp hs
    norm_num at this

/-! ## CfC relaxation theorem (claim C4) -/

/-- Claim C4: for a cell whose time constants are all positive and any
elapsed time `dt ≥ 0` (as used by `step`, whose clamped dt is positive, and
`predict`, whose dt is clamped at 0), each decay factor `exp(-dt/tau[i])`
lies in `(0, 1]`, and each component of the relaxed state
`state[i]*decay + equilibrium[i]*(1-decay)` lies between the previous
`state[i]` and `equilibrium[i]` inclusive — the state never overshoots the
equilibrium for any gap size. -/
theorem CfCCell.no_overshoot (c : CfCCell) (dt : ℝ) (hdt : 0 ≤ dt)
    (htau : ∀ t ∈ c.tau, 0 < t) (i : ℕ) (hi : i < c.state.length)
    (h1 : c.state.length ≤ c.tau.length)
    (h2 : c.state.length ≤ c.equilibrium.length) :
    (0 < (cfcDecay dt c.tau).getD i 0 ∧ (cfcDecay dt c.tau).getD i 0 ≤ 1) ∧
      min (c.state.getD i 0) (c.equilibrium.getD i 0)
          ≤ (cfcRelax c.state c.equilibrium (cfcDecay dt c.tau)).getD i 0 ∧
        (cfcRelax c.state c.equilibrium (cfcDecay dt c.tau)).getD i 0
          ≤ max (c.state.getD i 0) (c.equilibrium.getD i 0) := by
  have hit : i < c.tau.length := lt_of_lt_of_le hi h1
  have hie : i < c.equilibrium.length := lt_of_lt_of_le hi h2
  have hdlen : (cfcDecay dt c.tau).length = c.tau.length := by
    simp [cfcDecay]
  have hid : i < (cfcDecay dt c.tau).length := by rw [hdlen]; exact hit
  have hdecay : (cfcDecay dt c.tau).getD i 0 = Real.exp (-dt / c.tau[i]) := by
    rw [List.getD_eq_getElem _ _ hid]
    simp [cfcDecay]
  have htaui : 0 < c.tau[i] := htau _ (List.getElem_mem hit)
  have hd0 : 0 < (cfcDecay dt c.tau).getD i 0 := by
    rw [hdecay]; exact Real.exp_pos _
  have hd1 : (cfcDecay dt c.tau).getD i 0 ≤ 1 := by
    rw [hdecay]
    rw [neg_div]
    exact Real.exp_le_one_iff.mpr
      (neg_nonpos_of_nonneg (div_nonneg hdt htaui.le))
  have hrlen : i < (cfcRelax c.state c.equilibrium (cfcDecay dt c.tau)).length := by
    simp only [cfcRelax, vectorAdd, vectorMultiply, List.length_zipWith,
      List.length_map, hdlen]
    omega
  have hrelax : (cfcRelax c.state c.equilibrium (cfcDecay dt c.tau)).getD i 0
      = c.state[i] * (cfcDecay dt c.tau).getD i 0
        + c.equilibrium[i] * (1 - (cfcDecay dt c.tau).getD i 0) := by
    rw [List.getD_eq_getElem _ _ hrlen]
    simp only [cfcRelax, vectorAdd, vectorMultiply, List.getElem_zipWith,
      List.getElem_map]
    rw [List.getD_eq_getElem _ _ hid]
  have hs : c.state.getD i 0 = c.state[i] := List.getD_eq_getElem _ _ hi
  have he : c.equilibrium.getD i 0 = c.equilibrium[i] :=
    List.getD_eq_getElem _ _ hie
  refine ⟨⟨hd0, hd1⟩, ?_, ?_⟩
  · rw [hrelax, hs, he]
    nlinarith [min_le_left (c.state[i]) (c.equilibrium[i]),
      min_le_right (c.state[i]) (c.equilibrium[i]), hd0, hd1]
  · rw [hrelax, hs, he]
    nlinarith [le_max_left (c.state[i]) (c.equilibrium[i]),
      le_max_right (c.state[i]) (c.equilibrium[i]), hd0, hd1]

/-- A one-dimensional cell used to instantiate the no-overshoot theorem. -/
def overshootCell : CfCCell := ⟨⟨1, 0, 1, 0.99⟩, [1], [2], [0], none⟩

theorem CfCCell.no_overshoot_witness :
    (0:ℝ) ≤ 1 ∧ (∀ t ∈ overshootCell.tau, 0 < t) ∧
      ((0 < (cfcDecay 1 overshootCell.tau).getD 0 0 ∧
          (cfcDecay 1 overshootCell.tau).getD 0 0 ≤ 1) ∧
        min (overshootCell.state.getD 0 0) (overshootCell.equilibrium.getD 0 0)
            ≤ (cfcRelax overshootCell.state overshootCell.equilibrium
                (cfcDecay 1 overshootCell.tau)).getD 0 0 ∧
          (cfcRelax overshootCell.state overshootCell.equilibrium
              (cfcDecay 1 overshootCell.tau)).getD 0 0
            ≤ max (overshootCell.state.getD 0 0)
                (overshootCell.equilibrium.getD 0 0)) :=
  have htau : ∀ t ∈ overshootCell.tau, 0 < t := by
    norm_num [overshootCell]
  ⟨by norm_num, htau,
    CfCCell.no_overshoot overshootCell 1 (by norm_num) htau 0
      (by norm_num [overshootCell]) (by norm_num [overshootCell])
      (by norm_num [overshootCell])⟩

/-! ## Planner theorems (claims C8 and C9) -/

namespace InterventionPlanner

theorem planLoop_length (dims : List String) (sel : List (Action × ℚ)) (i : ℕ)
    (pg : List (String × ℚ)) :
    (planLoop dims sel i pg).2.1.length = sel.length := by
  induction sel generalizing i pg with
  | nil => simp [planLoop]
  | cons hd t ih =>
    obtain ⟨a, s⟩ := hd
    simp [planLoop, ih]

theorem scoreAction_lambda_mono (gap : List (String × ℚ)) (a : Action)
    (cfg : PlannerConfig) {l1 l2 : ℚ} (h : l1 ≤ l2) :
    scoreAction gap { cfg with lambda := l2 } a
      ≤ scoreAction gap { cfg with lambda := l1 } a := by
  simp only [scoreAction]
  apply max_le_max le_rfl
  linarith

theorem scoreList_countP_mono (gap : List (String × ℚ)) (cfg : PlannerConfig)
    (maxCost : Option ℚ) {l1 l2 : ℚ} (h : l1 ≤ l2) (actions : List Action) :
    (scoreList gap { cfg with lambda := l2 } maxCost actions).countP
        (fun p => decide (p.2 > 0.1))
      ≤ (scoreList gap { cfg with lambda := l1 } maxCost actions).countP
          (fun p => decide (p.2 > 0.1)) := by
  induction actions with
  | nil => simp [scoreList]
  | cons a t ih =>
    by_cases hb : overBudget maxCost a
    · simp [scoreList, hb, ih]
    · simp only [scoreList, hb, Bool.false_eq_true, if_false]
      rw [List.countP_cons, List.countP_cons]
      refine Nat.add_le_add ih ?_
      have hmono := scoreAction_lambda_mono gap a cfg h
      by_cases h2 : scoreAction gap { cfg with lambda := l2 } a > 0.1
      · have h1 : scoreAction gap { cfg with lambda := l1 } a > 0.1 :=
          lt_of_lt_of_le h2 hmono
        simp [h1, h2]
      · simp [h2]

/-- Sorting is a permutation, so the count of selected scores is unchanged. -/
theorem scoreActions_countP (actions : List Action) (gap : List (String × ℚ))
    (maxCost : Option ℚ) (cfg : PlannerConfig) (p : Action × ℚ → Bool) :
    (scoreActions actions gap maxCost cfg).countP p
      = (scoreList gap cfg maxCost actions).countP p :=
  (List.mergeSort_perm _ _).countP_eq p

/-- Claim C8: for a fixed `(currentState, targetState)` pair, fixed
constraints and fixed remaining configuration, raising the sparsity weight
`lambda` never increases `activeCount`: each action's clamped score is
non-increasing in `lambda`, selection thresholds the scores at 0.1, sorting
is a permutation, and the cap `maxActions` is monotone. -/
theorem plan_sparsity_mono (cfg : PlannerConfig)
    (current target : List (String × ℚ)) (constraints : Option PlanConstraints)
    {l1 l2 : ℚ} (h : l1 ≤ l2) :
    (plan { cfg with lambda := l2 } current target constraints).activeCount
      ≤ (plan { cfg with lambda := l1 } current target constraints).activeCount := by
  simp only [plan, planLoop_length, List.length_take,
    ← List.countP_eq_length_filter, scoreActions_countP]
  exact min_le_min le_rfl (scoreList_countP_mono _ _ _ h _)

theorem plan_sparsity_mono_witness :
    (0:ℚ) ≤ 1 ∧
      (plan { (⟨0, 5, 0, []⟩ : PlannerConfig) with lambda := 1 } [] []
          none).activeCount
        ≤ (plan { (⟨0, 5, 0, []⟩ : PlannerConfig) with lambda := 0 } [] []
            none).activeCount :=
  ⟨by norm_num, plan_sparsity_mono ⟨0, 5, 0, []⟩ [] [] none (by norm_num)⟩

/-- Per-effect contribution to the accrued benefit, as the code computes it:
the overshoot penalty lives in the `else if` branch, so it applies only when
the sign-match condition fails. -/
def effectContribution (gap : List (String × ℚ)) (e : ActionEffect) : ℚ :=
  let dimGap := (lookupA gap e.dimension).getD 0
  if (dimGap > 0 ∧ e.magnitude > 0) ∨ (dimGap < 0 ∧ e.magnitude < 0) then
    min |dimGap| |e.magnitude| * e.confidence
  else if |e.magnitude| > |dimGap| * 2 then -(0.1 * |e.magnitude| * e.confidence)
  else 0

/-- Closed-form rendering of the action score following the amended claim's
words: sum of per-effect contributions, normalized by the total effect
confidence when positive, minus `lambda` and `costWeight * cost`, clamped at
0. -/
def scoreSpec (gap : List (String × ℚ)) (cfg : PlannerConfig)
    (action : Action) : ℚ :=
  let totalWeight := (action.effects.map ActionEffect.confidence).sum
  let benefit := (action.effects.map (effectContribution gap)).sum
  let normalized := if totalWeight > 0 then benefit / totalWeight else benefit
  max 0 (normalized - cfg.lambda - cfg.costWeight * action.cost)

/-- Rendering of the claim's literal words, with the two accrual conditions
read independently: the benefit clause applies whenever signs match AND the
penalty clause applies whenever the magnitude exceeds twice the gap. -/
def claimContribution (gap : List (String × ℚ)) (e : ActionEffect) : ℚ :=
  let dimGap := (lookupA gap e.dimension).getD 0
  (if (dimGap > 0 ∧ e.magnitude > 0) ∨ (dimGap < 0 ∧ e.magnitude < 0) then
     min |dimGap| |e.magnitude| * e.confidence
   else 0)
  - (if |e.magnitude| > |dimGap| * 2 then 0.1 * |e.magnitude| * e.confidence
     else 0)

/-- The score as the claim's literal wording would compute it. -/
def scoreClaim (gap : List (String × ℚ)) (cfg : PlannerConfig)
    (action : Action) : ℚ :=
  let totalWeight := (action.effects.map ActionEffect.confidence).sum
  let benefit := (action.effects.map (claimContribution gap)).sum
  let normalized := if totalWeight > 0 then benefit / totalWeight else benefit
  max 0 (normalized - cfg.lambda - cfg.costWeight * action.cost)

theorem benefitWeight_go (gap : List (String × ℚ))
    (effects : List ActionEffect) (b w : ℚ) :
    effects.foldl
      (fun acc e =>
        let dimGap := (lookupA gap e.dimension).getD 0
        let benefit :=
          if (dimGap > 0 ∧ e.magnitude > 0) ∨ (dimGap < 0 ∧ e.magnitude < 0) then
            acc.1 + min |dimGap| |e.magnitude| * e.confidence
          else if |e.magnitude| > |dimGap| * 2 then
            acc.1 - 0.1 * |e.magnitude| * e.confidence
          else acc.1
        (benefit, acc.2 + e.confidence))
      (b, w)
    = (b + (effects.map (effectContribution gap)).sum,
        w + (effects.map ActionEffect.confidence).sum) := by
  induction effects generalizing b w with
  | nil => simp
  | cons e t ih =>
    simp only [List.foldl_cons, List.map_cons, List.sum_cons]
    rw [ih]
    simp only [effectContribution, Prod.mk.injEq]
    constructor
    · split_ifs <;> ring
    · ring

theorem benefitWeight_eq (gap : List (String × ℚ))
    (effects : List ActionEffect) :
    benefitWeight gap effects
      = ((effects.map (effectContribution gap)).sum,
          (effects.map ActionEffect.confidence).sum) := by
  rw [benefitWeight, benefitWeight_go]
  simp

/-- Claim C9 (amended): the action score equals the closed-form where each
effect contributes `min(|gap|,|magnitude|)*confidence` when its sign matches
the gap's, and the overshoot penalty `-0.1*|magnitude|*confidence` applies
only otherwise (when the sign-match condition fails) and only if
`|magnitude| > 2*|gap|`; the summed benefit is divided by the total effect
confidence when that total is positive, reduced by `lambda` and
`costWeight*cost`, and clamped at 0. -/
theorem scoreAction_eq_scoreSpec (gap : List (String × ℚ))
    (cfg : PlannerConfig) (action : Action) :
    scoreAction gap cfg action = scoreSpec gap cfg action := by
  rw [scoreAction, scoreSpec, benefitWeight_eq]

/-- Claim C9, counterexample: with gap 0.1 and a same-signed effect of
magnitude 0.3 (so both the sign-match and the overshoot conditions hold), the
code adds the benefit without any penalty and scores 1/10, while the claim's
literal reading (both clauses applied independently) would score 7/100. -/
theorem scoreAction_ne_claim_literal :
    scoreAction [("d", 1/10)] ⟨0, 5, 0, []⟩
        ⟨"a", "a", "c", 0, 0, [⟨"d", 3/10, 1, 0⟩]⟩ = 1/10 ∧
      scoreClaim [("d", 1/10)] ⟨0, 5, 0, []⟩
          ⟨"a", "a", "c", 0, 0, [⟨"d", 3/10, 1, 0⟩]⟩ = 7/100 ∧
      scoreAction [("d", 1/10)] ⟨0, 5, 0, []⟩
          ⟨"a", "a", "c", 0, 0, [⟨"d", 3/10, 1, 0⟩]⟩
        ≠ scoreClaim [("d", 1/10)] ⟨0, 5, 0, []⟩
            ⟨"a", "a", "c", 0, 0, [⟨"d", 3/10, 1, 0⟩]⟩ := by
  have ha1 : |(1:ℚ)/10| = 1/10 := abs_of_pos (by norm_num)
  have ha3 : |(3:ℚ)/10| = 3/10 := abs_of_pos (by norm_num)
  refine ⟨?_, ?_, ?_⟩ <;>
    norm_num [scoreAction, scoreClaim, benefitWeight, lookupA,
      effectContribution, claimContribution, ha1, ha3]

end InterventionPlanner

/-! ## Estimator theorems (claims C3 and C7) -/

theorem tanh_nonneg_of_nonneg {x : ℝ} (h : 0 ≤ x) : 0 ≤ Real.tanh x := by
  rw [Real.tanh_eq_sinh_div_cosh]
  exact div_nonneg (Real.sinh_nonneg_iff.mpr h) (Real.cosh_pos x).le

theorem tanh_le_one (x : ℝ) : Real.tanh x ≤ 1 := by
  rw [Real.tanh_eq_sinh_div_cosh, div_le_one (Real.cosh_pos x)]
  exact (Real.sinh_lt_cosh x).le

/-- Well-formed time constants: the configured bounds are ordered and
non-negative and every current tau entry is non-negative. -/
def CfCCell.TauOk (c : CfCCell) : Prop :=
  0 ≤ c.config.tauMin ∧ c.config.tauMin ≤ c.config.tauMax ∧ ∀ t ∈ c.tau, 0 ≤ t

theorem CfCCell.updateTau_nonneg (c : CfCCell) (obs : List ℝ) (h : c.TauOk) :
    ∀ t ∈ c.updateTau obs, 0 ≤ t := by
  intro t ht
  obtain ⟨j, a, ha, rfl⟩ := mem_mapWithIndex ht
  obtain ⟨h0, h1, h2⟩ := h
  have hta : 0 ≤ a := h2 a ha
  by_cases hcond : j < obs.length ∧ j < c.config.stateDim
  · simp only [if_pos hcond]
    have htanh0 : 0 ≤ Real.tanh |obs.getD j 0 - c.state.getD j 0| :=
      tanh_nonneg_of_nonneg (abs_nonneg _)
    have htanh1 : Real.tanh |obs.getD j 0 - c.state.getD j 0| ≤ 1 :=
      tanh_le_one _
    nlinarith
  · simp only [if_neg hcond]
    exact hta

theorem CfCCell.step_tauOk (c : CfCCell) (obs : List ℝ) (ts : ℝ)
    (h : c.TauOk) : ((c.step obs ts).2).TauOk :=
  ⟨h.1, h.2.1, CfCCell.updateTau_nonneg c obs h⟩

theorem avgTau_nonneg {l : List ℝ} (h : ∀ t ∈ l, 0 ≤ t) : 0 ≤ avgTau l :=
  div_nonneg (List.sum_nonneg h) (Nat.cast_nonneg _)

theorem exp_neg_div_unit {x a : ℝ} (hx : 0 ≤ x) (ha : 0 ≤ a) :
    0 ≤ Real.exp (-(x / a)) ∧ Real.exp (-(x / a)) ≤ 1 :=
  ⟨(Real.exp_pos _).le,
    Real.exp_le_one_iff.mpr (neg_nonpos_of_nonneg (div_nonneg hx ha))⟩

theorem lookupA_mem {α : Type} {l : List (String × α)} {k : String} {v : α}
    (h : lookupA l k = some v) : (k, v) ∈ l := by
  induction l with
  | nil => simp [lookupA] at h
  | cons hd t ih =>
    rw [lookupA] at h
    by_cases hk : hd.1 = k
    · rw [if_pos hk] at h
      have : hd = (k, v) := Prod.ext hk (Option.some.inj h)
      exact this ▸ List.mem_cons_self _ _
    · rw [if_neg hk] at h
      exact List.mem_cons_of_mem _ (ih h)

theorem defaultDimCell_tauOk (d : DimensionSpec) (h0 : 0 ≤ d.tauMin)
    (h1 : d.tauMin ≤ d.tauMax) : (defaultDimCell d).TauOk := by
  refine ⟨h0, h1, ?_⟩
  intro t ht
  rw [defaultDimCell, mkCfCCell] at ht
  simp only [List.mem_replicate] at ht
  rw [ht.2]
  linarith

theorem stepDims_conf_bounds (t : ℝ) (obs : List (String × ℝ)) :
    ∀ (ds : List DimensionSpec) (cells : List (String × CfCCell))
      (dims confs : List (String × ℝ)),
      (∀ p ∈ cells, CfCCell.TauOk p.2) →
      (∀ d ∈ ds, 0 ≤ d.tauMin ∧ d.tauMin ≤ d.tauMax) →
      (∀ p ∈ confs, 0 ≤ p.2 ∧ p.2 ≤ 1) →
      ∀ p ∈ (stepDims t obs ds cells dims confs).2.2, 0 ≤ p.2 ∧ p.2 ≤ 1 := by
  intro ds
  induction ds with
  | nil =>
    intro cells dims confs _ _ hf p hp
    rw [stepDims] at hp
    exact hf p hp
  | cons d rest ih =>
    intro cells dims confs hc hd hf p hp
    rw [stepDims] at hp
    have hcellOk : CfCCell.TauOk ((lookupA cells d.name).getD (defaultDimCell d)) := by
      cases hl : lookupA cells d.name with
      | none =>
        have h := hd d (List.mem_cons_self _ _)
        simpa [hl] using defaultDimCell_tauOk d h.1 h.2
      | some c' => simpa [hl] using hc (d.name, c') (lookupA_mem hl)
    have hstepOk := CfCCell.step_tauOk _ (obsVector ((lookupA obs d.name).getD 0)) t hcellOk
    refine ih _ _ _ ?_ (fun d' hd' => hd d' (List.mem_cons_of_mem _ hd')) ?_ p hp
    · intro q hq
      rcases setAssoc_mem hq with rfl | hq'
      · exact hstepOk
      · exact hc q hq'
    · intro q hq
      rcases setAssoc_mem hq with rfl | hq'
      · exact exp_neg_div_unit (by norm_num) (avgTau_nonneg hstepOk.2.2)
      · exact hf q hq'

theorem predictDims_conf_bounds (ft dt : ℝ) (hdt : 0 ≤ dt) :
    ∀ (ds : List DimensionSpec) (cells : List (String × CfCCell))
      (dims confs : List (String × ℝ)),
      (∀ p ∈ cells, CfCCell.TauOk p.2) →
      (∀ d ∈ ds, 0 ≤ d.tauMin ∧ d.tauMin ≤ d.tauMax) →
      (∀ p ∈ confs, 0 ≤ p.2 ∧ p.2 ≤ 1) →
      ∀ p ∈ (predictDims ft dt ds cells dims confs).2, 0 ≤ p.2 ∧ p.2 ≤ 1 := by
  intro ds
  induction ds with
  | nil =>
    intro cells dims confs _ _ hf p hp
    rw [predictDims] at hp
    exact hf p hp
  | cons d rest ih =>
    intro cells dims confs hc hd hf p hp
    rw [predictDims] at hp
    have hcellOk : CfCCell.TauOk ((lookupA cells d.name).getD (defaultDimCell d)) := by
      cases hl : lookupA cells d.name with
      | none =>
        have h := hd d (List.mem_cons_self _ _)
        simpa [hl] using defaultDimCell_tauOk d h.1 h.2
      | some c' => simpa [hl] using hc (d.name, c') (lookupA_mem hl)
    refine ih _ _ _ hc (fun d' hd' => hd d' (List.mem_cons_of_mem _ hd')) ?_ p hp
    intro q hq
    rcases setAssoc_mem hq with rfl | hq'
    · exact exp_neg_div_unit hdt (avgTau_nonneg hcellOk.2.2)
    · exact hf q hq'

/-- Claim C3 (amended): every per-dimension confidence produced by
`HealthStateEstimator.update` lies in [0,1], and every confidence produced by
`predict` lies in [0,1] whenever the forecast horizon is not in the past
(`futureTimestamp ≥ lastUpdateTime`; for `lastUpdateTime = 0` the source's
truthiness test takes dt = 0 so any horizon is safe).  The estimator's time
constants must be well-formed (non-negative, as the constructor creates them
from a config with `0 ≤ tauMin ≤ tauMax`). -/
theorem HealthStateEstimator.confidence_unit_interval (e : HealthStateEstimator)
    (hcells : ∀ p ∈ e.cells, CfCCell.TauOk p.2)
    (hdims : ∀ d ∈ e.config.dimensions, 0 ≤ d.tauMin ∧ d.tauMin ≤ d.tauMax)
    (observations : List (String × ℝ)) (t ft : ℝ)
    (hft : ∀ lt, e.lastUpdateTime = some lt → lt ≠ 0 → lt ≤ ft) :
    (∀ p ∈ (e.update observations t).1.confidence, 0 ≤ p.2 ∧ p.2 ≤ 1) ∧
      (∀ p ∈ (e.predict ft).confidence, 0 ≤ p.2 ∧ p.2 ≤ 1) := by
  constructor
  · intro p hp
    refine stepDims_conf_bounds t observations e.config.dimensions e.cells
      [] [] hcells hdims (by simp) p ?_
    simpa [HealthStateEstimator.update] using hp
  · intro p hp
    have hdt : (0:ℝ) ≤ (match e.lastUpdateTime with
        | some lt => if lt = 0 then 0 else ft - lt
        | none => 0) := by
      cases he : e.lastUpdateTime with
      | none => simp
      | some lt =>
        by_cases h0 : lt = 0
        · simp [h0]
        · simp only [h0, if_false]
          have := hft lt he h0
          linarith
    refine predictDims_conf_bounds ft _ hdt e.config.dimensions e.cells
      [] [] hcells hdims (by simp) p ?_
    simpa [HealthStateEstimator.predict] using hp

theorem HealthStateEstimator.confidence_unit_interval_witness :
    (∀ p ∈ (mkHealthStateEstimator ⟨[⟨"c", 2, 3⟩]⟩).cells, CfCCell.TauOk p.2) ∧
      (∀ d ∈ (mkHealthStateEstimator ⟨[⟨"c", 2, 3⟩]⟩).config.dimensions,
        0 ≤ d.tauMin ∧ d.tauMin ≤ d.tauMax) ∧
      (∀ lt, (mkHealthStateEstimator ⟨[⟨"c", 2, 3⟩]⟩).lastUpdateTime = some lt →
        lt ≠ 0 → lt ≤ (7:ℝ)) ∧
      ((∀ p ∈ ((mkHealthStateEstimator ⟨[⟨"c", 2, 3⟩]⟩).update [] 5).1.confidence,
          0 ≤ p.2 ∧ p.2 ≤ 1) ∧
        (∀ p ∈ ((mkHealthStateEstimator ⟨[⟨"c", 2, 3⟩]⟩).predict 7).confidence,
          0 ≤ p.2 ∧ p.2 ≤ 1)) :=
  have hcells : ∀ p ∈ (mkHealthStateEstimator ⟨[⟨"c", 2, 3⟩]⟩).cells,
      CfCCell.TauOk p.2 := by
    intro p hp
    simp only [mkHealthStateEstimator, List.map_cons, List.map_nil,
      List.mem_singleton] at hp
    subst hp
    refine ⟨by norm_num [mkCfCCell], by norm_num [mkCfCCell], ?_⟩
    intro tt htt
    rw [mkCfCCell] at htt
    simp only [List.mem_replicate] at htt
    rw [htt.2]
    norm_num
  have hdims : ∀ d ∈ (mkHealthStateEstimator ⟨[⟨"c", 2, 3⟩]⟩).config.dimensions,
      0 ≤ d.tauMin ∧ d.tauMin ≤ d.tauMax := by
    intro d hd
    simp only [mkHealthStateEstimator, List.mem_singleton] at hd
    subst hd
    norm_num
  have hft : ∀ lt, (mkHealthStateEstimator ⟨[⟨"c", 2, 3⟩]⟩).lastUpdateTime
      = some lt → lt ≠ 0 → lt ≤ (7:ℝ) := by
    intro lt h
    rw [mkHealthStateEstimator] at h
    simp at h
  ⟨hcells, hdims, hft,
    HealthStateEstimator.confidence_unit_interval _ hcells hdims [] 5 7 hft⟩

theorem mk_cardio_cell :
    mkCfCCell ⟨4, 2, 2, 0.99⟩
      = ⟨⟨4, 2, 2, 0.99⟩, [0, 0, 0, 0], [2, 2, 2, 2], [0, 0, 0, 0], none⟩ := by
  rw [mkCfCCell]
  norm_num [zerosVec, List.replicate]

theorem cardio_step :
    (⟨⟨4, 2, 2, 0.99⟩, [0, 0, 0, 0], [2, 2, 2, 2], [0, 0, 0, 0], none⟩ :
        CfCCell).step [0, 0, 0, 0] 1
      = ([0, 0, 0, 0],
          ⟨⟨4, 2, 2, 0.99⟩, [0, 0, 0, 0], [2, 2, 2, 2], [0, 0, 0, 0], some 1⟩) := by
  simp [CfCCell.step, CfCCell.updateEquilibrium, CfCCell.updateTau,
    mapWithIndex, cfcDecay, cfcRelax, vectorAdd, vectorMultiply,
    Real.tanh_zero]
  norm_num

theorem cardio_update_cells :
    (((mkHealthStateEstimator ⟨[⟨"cardio", 2, 2⟩]⟩).update [] 1).2).cells
        = [("cardio",
            (⟨⟨4, 2, 2, 0.99⟩, [0, 0, 0, 0], [2, 2, 2, 2], [0, 0, 0, 0],
              some 1⟩ : CfCCell))] ∧
      (((mkHealthStateEstimator ⟨[⟨"cardio", 2, 2⟩]⟩).update [] 1).2).lastUpdateTime
        = some 1 ∧
      (((mkHealthStateEstimator ⟨[⟨"cardio", 2, 2⟩]⟩).update [] 1).2).config
        = ⟨[⟨"cardio", 2, 2⟩]⟩ := by
  have hobs : obsVector 0 = [0, 0, 0, 0] := by
    norm_num [obsVector]
  refine ⟨?_, ?_, ?_⟩ <;>
    simp [HealthStateEstimator.update, stepDims, mkHealthStateEstimator,
      lookupA, setAssoc, mk_cardio_cell, hobs, cardio_step]

theorem exp_half_gt_one : (1:ℝ) < Real.exp (1/2) := by
  calc (1:ℝ) = Real.exp 0 := Real.exp_zero.symm
  _ < Real.exp (1/2) := Real.exp_lt_exp.mpr (by norm_num)

theorem predict_past_confidence :
    (lookupA ((((mkHealthStateEstimator ⟨[⟨"cardio", 2, 2⟩]⟩).update []
          1).2).predict 0).confidence "cardio").getD 0
      = Real.exp (1/2) := by
  obtain ⟨hcells, hlast, hcfg⟩ := cardio_update_cells
  rw [HealthStateEstimator.predict]
  rw [hcells, hlast, hcfg]
  simp only [predictDims, lookupA, setAssoc, avgTau]
  norm_num [lookupA, setAssoc]

/-- Well-formed vector lengths: every vector a cell owns has length
`stateDim`. -/
def CfCCell.DimOk (c : CfCCell) : Prop :=
  c.state.length = c.config.stateDim ∧ c.tau.length = c.config.stateDim ∧
    c.equilibrium.length = c.config.stateDim

theorem mkCfCCell_dimOk (cfg : CfCConfig) : (mkCfCCell cfg).DimOk := by
  refine ⟨?_, ?_, ?_⟩ <;> simp [mkCfCCell, zerosVec]

theorem CfCCell.step_dimOk (c : CfCCell) (obs : List ℝ) (ts : ℝ)
    (h : c.DimOk) : ((c.step obs ts).2).DimOk := by
  obtain ⟨h1, h2, h3⟩ := h
  refine ⟨?_, ?_, ?_⟩ <;>
    simp [CfCCell.step, cfcRelax, vectorAdd, vectorMultiply, cfcDecay,
      CfCCell.updateEquilibrium, CfCCell.updateTau, length_mapWithIndex,
      h1, h2, h3]

theorem CfCCell.step_lastTimestamp (c : CfCCell) (obs : List ℝ) (ts : ℝ) :
    ((c.step obs ts).2).lastTimestamp = some ts := rfl

theorem CfCCell.step_state_eq (c : CfCCell) (obs : List ℝ) (ts : ℝ) :
    ((c.step obs ts).2).state = (c.step obs ts).1 := rfl

theorem zipWith_mul_replicate_one (l : List ℝ) (n : ℕ) (h : l.length ≤ n) :
    List.zipWith (· * ·) l (List.replicate n 1) = l := by
  induction l generalizing n with
  | nil => simp
  | cons a t ih =>
    cases n with
    | zero => simp at h
    | succ m =>
      simp only [List.replicate_succ, List.zipWith_cons_cons, mul_one]
      rw [ih m (by simpa using h)]

theorem zipWith_mul_replicate_zero (l : List ℝ) (n : ℕ) :
    List.zipWith (· * ·) l (List.replicate n 0)
      = List.replicate (min l.length n) 0 := by
  induction l generalizing n with
  | nil => simp
  | cons a t ih =>
    cases n with
    | zero => simp
    | succ m =>
      simp only [List.replicate_succ, List.zipWith_cons_cons, mul_zero,
        List.length_cons, Nat.succ_min_succ, ih m]

theorem zipWith_add_replicate_zero (l : List ℝ) (n : ℕ) (h : l.length ≤ n) :
    List.zipWith (· + ·) l (List.replicate n 0) = l := by
  induction l generalizing n with
  | nil => simp
  | cons a t ih =>
    cases n with
    | zero => simp at h
    | succ m =>
      simp only [List.replicate_succ, List.zipWith_cons_cons, add_zero]
      rw [ih m (by simpa using h)]

theorem map_const_one (l : List ℝ) :
    (l.map fun _ => (1:ℝ)) = List.replicate l.length 1 := by
  induction l with
  | nil => simp
  | cons a t ih => simp [ih, List.replicate_succ]

/-- Zero-horizon prediction restates the state exactly: with `dt = 0` every
decay factor is `exp 0 = 1`. -/
theorem CfCCell.predict_at_lastTimestamp (c : CfCCell) (t : ℝ)
    (hlt : c.lastTimestamp = some t) (h1 : c.state.length ≤ c.tau.length)
    (h2 : c.state.length ≤ c.equilibrium.length) :
    c.predict t = c.state := by
  rw [CfCCell.predict, hlt]
  change cfcRelax c.state c.equilibrium (cfcDecay (max (t - t) 0) c.tau)
    = c.state
  have hdt : max (t - t) 0 = 0 := by simp
  rw [hdt]
  have hdecay : cfcDecay 0 c.tau = List.replicate c.tau.length 1 := by
    rw [cfcDecay]
    simp only [neg_zero, zero_div, Real.exp_zero]
    exact map_const_one c.tau
  rw [hdecay, cfcRelax, vectorMultiply, vectorMultiply, vectorAdd]
  rw [zipWith_mul_replicate_one c.state c.tau.length h1]
  have hmap : (List.replicate c.tau.length (1:ℝ)).map (fun d => 1 - d)
      = List.replicate c.tau.length 0 := by
    simp
  rw [hmap, zipWith_mul_replicate_zero]
  exact zipWith_add_replicate_zero c.state _
    (le_min h2 h1)

theorem stepDims_lookup_frame (t : ℝ) (obs : List (String × ℝ)) :
    ∀ (ds : List DimensionSpec) (cells : List (String × CfCCell))
      (dims confs : List (String × ℝ)) (k : String),
      k ∉ ds.map DimensionSpec.name →
      lookupA (stepDims t obs ds cells dims confs).1 k = lookupA cells k := by
  intro ds
  induction ds with
  | nil => intro cells dims confs k _; rw [stepDims]
  | cons d rest ih =>
    intro cells dims confs k hk
    simp only [List.map_cons, List.mem_cons, not_or] at hk
    rw [stepDims]
    rw [ih _ _ _ k hk.2]
    exact lookupA_setAssoc_ne cells _ hk.1

theorem stepDims_cells_dimOk (t : ℝ) (obs : List (String × ℝ)) :
    ∀ (ds : List DimensionSpec) (cells : List (String × CfCCell))
      (dims confs : List (String × ℝ)),
      (∀ p ∈ cells, CfCCell.DimOk p.2) →
      ∀ p ∈ (stepDims t obs ds cells dims confs).1, CfCCell.DimOk p.2 := by
  intro ds
  induction ds with
  | nil => intro cells dims confs hc p hp; rw [stepDims] at hp; exact hc p hp
  | cons d rest ih =>
    intro cells dims confs hc p hp
    rw [stepDims] at hp
    refine ih _ _ _ ?_ p hp
    intro q hq
    rcases setAssoc_mem hq with rfl | hq'
    · refine CfCCell.step_dimOk _ _ _ ?_
      cases hl : lookupA cells d.name with
      | none => simpa [hl] using mkCfCCell_dimOk _
      | some c' => simpa [hl] using hc (d.name, c') (lookupA_mem hl)
    · exact hc q hq'

theorem predictDims_after_stepDims (t : ℝ) (obs : List (String × ℝ)) (dt : ℝ) :
    ∀ (ds : List DimensionSpec) (cells : List (String × CfCCell))
      (dims confs confs' : List (String × ℝ)),
      (∀ p ∈ cells, CfCCell.DimOk p.2) →
      (ds.map DimensionSpec.name).Nodup →
      (predictDims t dt ds (stepDims t obs ds cells dims confs).1 dims confs').1
        = (stepDims t obs ds cells dims confs).2.1 := by
  intro ds
  induction ds with
  | nil =>
    intro cells dims confs confs' _ _
    rw [stepDims, predictDims]
  | cons d rest ih =>
    intro cells dims confs confs' hc hnd
    simp only [List.map_cons, List.nodup_cons] at hnd
    have hcellDim : CfCCell.DimOk ((lookupA cells d.name).getD (defaultDimCell d)) := by
      cases hl : lookupA cells d.name with
      | none => simpa [hl] using mkCfCCell_dimOk _
      | some c' => simpa [hl] using hc (d.name, c') (lookupA_mem hl)
    rw [stepDims, predictDims]
    -- the final cell map still holds the cell this round stepped
    have hlookF : lookupA
        (stepDims t obs rest
          (setAssoc cells d.name
            (((lookupA cells d.name).getD (defaultDimCell d)).step
              (obsVector ((lookupA obs d.name).getD 0)) t).2)
          (setAssoc dims d.name
            (collapseState
              (((lookupA cells d.name).getD (defaultDimCell d)).step
                (obsVector ((lookupA obs d.name).getD 0)) t).1))
          (setAssoc confs d.name
            (Real.exp
              (-(0.1 / avgTau
                (((lookupA cells d.name).getD (defaultDimCell d)).step
                  (obsVector ((lookupA obs d.name).getD 0)) t).2.tau))))).1
        d.name
        = some (((lookupA cells d.name).getD (defaultDimCell d)).step
            (obsVector ((lookupA obs d.name).getD 0)) t).2 := by
      rw [stepDims_lookup_frame t obs rest _ _ _ d.name hnd.1]
      exact lookupA_setAssoc_self _ _ _
    rw [hlookF]
    simp only [Option.getD_some]
    have hDimOk := CfCCell.step_dimOk ((lookupA cells d.name).getD (defaultDimCell d))
      (obsVector ((lookupA obs d.name).getD 0)) t hcellDim
    rw [CfCCell.predict_at_lastTimestamp _ t
      (CfCCell.step_lastTimestamp _ _ _)
      (by rw [hDimOk.1, hDimOk.2.1]) (by rw [hDimOk.1, hDimOk.2.2])]
    rw [CfCCell.step_state_eq]
    refine ih _ _ _ _ ?_ hnd.2
    intro q hq
    rcases setAssoc_mem hq with rfl | hq'
    · exact hDimOk
    · exact hc q hq'

/-- Claim C7: `getCurrentState()` is `none` before the first update, and
immediately after `update(observations, t)` it restates exactly the
per-dimension values that `update` returned: the zero-horizon prediction has
`dt = max(t - t, 0) = 0`, so every decay factor is `exp 0 = 1`. -/
theorem HealthStateEstimator.getCurrentState_restates_update
    (e : HealthStateEstimator) (observations : List (String × ℝ)) (t : ℝ)
    (hdim : ∀ p ∈ e.cells, CfCCell.DimOk p.2)
    (hnd : (e.config.dimensions.map DimensionSpec.name).Nodup) :
    (e.lastUpdateTime = none → e.getCurrentState = none) ∧
      Option.map HealthState.dimensions
          ((e.update observations t).2.getCurrentState)
        = some ((e.update observations t).1.dimensions) := by
  constructor
  · intro h
    rw [HealthStateEstimator.getCurrentState, h]
  · simp only [HealthStateEstimator.update, HealthStateEstimator.getCurrentState,
      HealthStateEstimator.predict, Option.map_some']
    exact congrArg some
      (predictDims_after_stepDims t observations _ e.config.dimensions e.cells
        [] [] [] hdim hnd)

theorem getCurrentState_restates_update_witness :
    (∀ p ∈ (mkHealthStateEstimator ⟨[⟨"c", 2, 3⟩]⟩).cells, CfCCell.DimOk p.2) ∧
      ((mkHealthStateEstimator ⟨[⟨"c", 2, 3⟩]⟩).config.dimensions.map
        DimensionSpec.name).Nodup ∧
      (((mkHealthStateEstimator ⟨[⟨"c", 2, 3⟩]⟩).lastUpdateTime = none →
          (mkHealthStateEstimator ⟨[⟨"c", 2, 3⟩]⟩).getCurrentState = none) ∧
        Option.map HealthState.dimensions
            (((mkHealthStateEstimator ⟨[⟨"c", 2, 3⟩]⟩).update [] 5).2.getCurrentState)
          = some
              (((mkHealthStateEstimator ⟨[⟨"c", 2, 3⟩]⟩).update [] 5).1.dimensions)) :=
  have hdim : ∀ p ∈ (mkHealthStateEstimator ⟨[⟨"c", 2, 3⟩]⟩).cells,
      CfCCell.DimOk p.2 := by
    intro p hp
    simp only [mkHealthStateEstimator, List.map_cons, List.map_nil,
      List.mem_singleton] at hp
    subst hp
    exact mkCfCCell_dimOk _
  have hnd : ((mkHealthStateEstimator ⟨[⟨"c", 2, 3⟩]⟩).config.dimensions.map
      DimensionSpec.name).Nodup := by
    simp [mkHealthStateEstimator]
  ⟨hdim, hnd,
    HealthStateEstimator.getCurrentState_restates_update _ [] 5 hdim hnd⟩

/-- Claim C3, counterexample: on a one-dimension estimator updated at
`t = 1`, predicting at the earlier time `0` yields
`confidence = exp(-(-1)/avgTau) = exp(1/2) > 1`, outside `[0, 1]` — the
claimed interval bound fails for a `futureTimestamp` in the past. -/
theorem HealthStateEstimator.predict_confidence_above_one :
    (lookupA ((((mkHealthStateEstimator ⟨[⟨"cardio", 2, 2⟩]⟩).update []
          1).2).predict 0).confidence "cardio").getD 0
        = Real.exp (1/2) ∧
      1 < (lookupA ((((mkHealthStateEstimator ⟨[⟨"cardio", 2, 2⟩]⟩).update []
            1).2).predict 0).confidence "cardio").getD 0 := by
  refine ⟨predict_past_confidence, ?_⟩
  rw [predict_past_confidence]
  exact exp_half_gt_one
